import Mathlib

/-!
Verification of the tunnel-cli connection supervisor and its leaf
collaborators (process handle registry, port probe, forwarding config
builder, binary provisioner, auth callback server).

The Python sources are embedded shallowly:

* OS processes are identified by numbers allocated from a counter
  (field "next" of World); the set of processes currently alive is the
  list "live".  Spawning a process consults an environment oracle
  "spawnOk" telling whether the spawned forwarding binary survives the
  one-second grace period that start_tunnel waits before polling.
* FRPClientManager.processes (a Python dict from tunnel id to Popen
  handle) is the association list "procs"; Python dict semantics (unique
  keys, insertion order) are reflected by eraseKey-then-append updates.
* Config files on disk are the list "configs" of tunnel ids.
* Calls to APIClient.update_connection_status are recorded in the
  append-only log "reports"; the real call is best-effort (failures are
  swallowed by the callers), so the log records attempted reports.
* Network, filesystem and subprocess primitives (HTTP download status,
  archive layout, socket connect results, captured stderr) are oracles
  supplied in environment records.
-/

namespace TunnelCli

/-- Status returned by FRPClientManager.get_tunnel_status. -/
inductive TStatus where
  | connected
  | disconnected
  | not_started
deriving DecidableEq

/-- Status strings reported to APIClient.update_connection_status. -/
inductive RStatus where
  | connected
  | port_down
  | disconnected
deriving DecidableEq

/-- A tunnel record as served by the Remote API (the fields the
supervisor and registry read). -/
structure Tunnel where
  id : String
  subdomain : String
  remote_port : Nat
  local_port : Option Nat
deriving DecidableEq

/-- The truthiness check of start_tunnel:
not all([tunnel_id, subdomain, remote_port]) raises ValueError. -/
def Tunnel.valid (t : Tunnel) : Prop :=
  t.id ≠ "" ∧ t.subdomain ≠ "" ∧ t.remote_port ≠ 0

instance (t : Tunnel) : Decidable t.valid := by
  unfold Tunnel.valid; infer_instance

/-- Combined state of the operating system (spawned processes and their
liveness), the FRPClientManager registry, the config directory, and the
log of status reports attempted against the Remote API. -/
structure World where
  next : Nat
  live : List Nat
  procs : List (String × Nat)
  spawned : List (String × Nat)
  configs : List String
  reports : List (String × RStatus)
deriving DecidableEq

/-- Fresh application start: empty registry, no processes ever spawned. -/
def World.init : World := ⟨0, [], [], [], [], []⟩

/-- Environment oracles for one reconciliation pass. -/
structure Env where
  portOpen : Nat → Bool
  spawnOk : Nat → Bool
  stderrOf : Nat → String
  installOk : Bool

/-- Python dict lookup on the association-list representation. -/
def lookupTid : List (String × Nat) → String → Option Nat
  | [], _ => none
  | (k, v) :: rest, tid => if k = tid then some v else lookupTid rest tid

/-- Python del d[tid] (removes every binding of the key; on the
unique-key lists produced by dict updates this is the single entry). -/
def eraseKey : List (String × Nat) → String → List (String × Nat)
  | [], _ => []
  | (k, v) :: rest, tid =>
      if k = tid then eraseKey rest tid else (k, v) :: eraseKey rest tid

/-- Writing the config file for a tunnel id (idempotent on the set of
files present). -/
def insertConfig (cs : List String) (tid : String) : List String :=
  if tid ∈ cs then cs else cs ++ [tid]

/-- FRPClientManager.stop_tunnel: no-op returning false when no handle
is registered; otherwise terminate/kill the process, drop the handle
from the dict and delete the config file, returning true. -/
def stop_tunnel (w : World) (tid : String) : World × Bool :=
  match lookupTid w.procs tid with
  | none => (w, false)
  | some pid =>
      ({ w with
          live := w.live.erase pid,
          procs := eraseKey w.procs tid,
          configs := w.configs.erase tid }, true)

/-- The wrapped message raised by start_tunnel when the spawned process
has already exited when polled after the grace period. -/
def startErrMsg (stderr : String) : String :=
  "Failed to start tunnel: FRP client failed to start: " ++ stderr

/-- FRPClientManager.start_tunnel: validate the tunnel data, stop any
existing handle for the id, write the config file, spawn the forwarding
binary and record the handle, then wait the grace period and poll.  If
the process has exited, raise an error carrying its captured stderr;
note the dead handle stays recorded (the except path does not clean the
dict). -/
def start_tunnel (env : Env) (w : World) (t : Tunnel) (_lp : Nat) :
    World × Except String Unit :=
  if t.id = "" ∨ t.subdomain = "" ∨ t.remote_port = 0 then
    (w, Except.error "Invalid tunnel data")
  else
    let w1 := (stop_tunnel w t.id).1
    let w2 := { w1 with configs := insertConfig w1.configs t.id }
    let pid := w2.next
    let ok := env.spawnOk pid
    let w3 := { w2 with
        next := pid + 1,
        live := if ok then pid :: w2.live else w2.live,
        procs := w2.procs ++ [(t.id, pid)],
        spawned := w2.spawned ++ [(t.id, pid)] }
    if ok then (w3, Except.ok ())
    else (w3, Except.error (startErrMsg (env.stderrOf pid)))

/-- FRPClientManager.get_tunnel_status. -/
def get_tunnel_status (w : World) (tid : String) : TStatus :=
  match lookupTid w.procs tid with
  | none => TStatus.not_started
  | some pid =>
      if pid ∈ w.live then TStatus.connected else TStatus.disconnected

/-- Append one attempted report to APIClient.update_connection_status. -/
def report (w : World) (tid : String) (s : RStatus) : World :=
  { w with reports := w.reports ++ [(tid, s)] }

/-- The body of the per-tunnel branch of
DashboardScreen.auto_connect_tunnels (decide, act, report; start and
report failures are swallowed by the bare except clauses). -/
def reconcileOne (env : Env) (w : World) (t : Tunnel) : World :=
  match t.local_port with
  | none => w
  | some lp =>
      let port_av := env.portOpen lp
      let cur := get_tunnel_status w t.id
      if port_av = true ∧ cur ≠ TStatus.connected then
        match start_tunnel env w t lp with
        | (w1, Except.ok _) => report w1 t.id RStatus.connected
        | (w1, Except.error _) => w1
      else if port_av = false ∧ cur = TStatus.connected then
        report (stop_tunnel w t.id).1 t.id RStatus.port_down
      else if port_av = false then
        report w t.id RStatus.port_down
      else w

/-- DashboardScreen.auto_connect_tunnels: a full reconciliation pass.
If ensure_frpc_installed returns false or raises, the method returns
immediately and no tunnel is reconciled; otherwise each tunnel of the
dashboard's tunnel_data is reconciled in order. -/
def auto_connect_tunnels (env : Env) (w : World) (ts : List Tunnel) : World :=
  if env.installOk then ts.foldl (reconcileOne env) w else w

/-- The status computed by DashboardScreen.sync_connection_status for
one tunnel with a configured local port. -/
def syncStatus (env : Env) (w : World) (t : Tunnel) (lp : Nat) : RStatus :=
  let frp := get_tunnel_status w t.id
  let port_av := env.portOpen lp
  if frp = TStatus.connected ∧ port_av = true then RStatus.connected
  else if port_av = false then RStatus.port_down
  else RStatus.disconnected

/-- One iteration of the sync_connection_status loop. -/
def syncOne (env : Env) (w : World) (t : Tunnel) : World :=
  match t.local_port with
  | none => w
  | some lp => report w t.id (syncStatus env w t lp)

/-- DashboardScreen.sync_connection_status: probe and report only. -/
def sync_connection_status (env : Env) (w : World) (ts : List Tunnel) :
    World :=
  ts.foldl (syncOne env) w

/-- DashboardScreen.periodic_sync, the callback the periodic timer
invokes: it awaits sync_connection_status and nothing else. -/
def periodic_sync (env : Env) (w : World) (ts : List Tunnel) : World :=
  sync_connection_status env w ts

/-- The interval passed to set_interval in DashboardScreen.on_mount. -/
def sync_interval : Nat := 30

/-- The reports sync_connection_status attempts, computed against the
registry state it runs in (it never mutates the registry). -/
def syncReportList (env : Env) (w : World) (ts : List Tunnel) :
    List (String × RStatus) :=
  ts.filterMap (fun t => t.local_port.map (fun lp => (t.id, syncStatus env w t lp)))

/-- Actions of the specification's reconciliation decision table. -/
inductive SAction where
  | START
  | STOP
  | REPORT_PORT_DOWN
  | NONE
deriving DecidableEq

/-- Modelled from the spec: the decision table of section 4.5, word for
word (this is the spec-side definition a refinement theorem compares
with the code-side reconcileOne). -/
def specAction (port_open : Bool) (proc_status : TStatus) : SAction :=
  if port_open = true ∧ proc_status ≠ TStatus.connected then SAction.START
  else if port_open = false ∧ proc_status = TStatus.connected then SAction.STOP
  else if port_open = false then SAction.REPORT_PORT_DOWN
  else SAction.NONE

/-- Modelled from the spec: execution of the decided action (section
4.5): START starts the process and reports connected on success
(abandoning the tunnel on failure), STOP stops the process and reports
port_down, REPORT_PORT_DOWN reports without touching any process, NONE
does nothing. -/
def runAction (env : Env) (w : World) (t : Tunnel) (lp : Nat) :
    SAction → World
  | SAction.START =>
      match start_tunnel env w t lp with
      | (w1, Except.ok _) => report w1 t.id RStatus.connected
      | (w1, Except.error _) => w1
  | SAction.STOP => report (stop_tunnel w t.id).1 t.id RStatus.port_down
  | SAction.REPORT_PORT_DOWN => report w t.id RStatus.port_down
  | SAction.NONE => w

/-- Number of reports of "connected" attempted for a tunnel id. -/
def connectedReports (rs : List (String × RStatus)) (tid : String) : Nat :=
  (rs.filter (fun r => decide (r.1 = tid ∧ r.2 = RStatus.connected))).length

/-- Number of registry entries (dict bindings) for a tunnel id. -/
def countKey (l : List (String × Nat)) (tid : String) : Nat :=
  (l.filter (fun e => decide (e.1 = tid))).length

/-- Number of processes ever spawned for a tunnel id that are alive. -/
def liveSpawnedFor (w : World) (tid : String) : Nat :=
  (w.spawned.filter (fun e => decide (e.1 = tid ∧ e.2 ∈ w.live))).length

/-- Does the first list start with the second one. -/
def startsWithL : List Char → List Char → Bool
  | _, [] => true
  | [], _ :: _ => false
  | a :: as, b :: bs => decide (a = b) && startsWithL as bs

/-- Does the first list contain the second as a contiguous run. -/
def hasSub : List Char → List Char → Bool
  | [], sub => sub.isEmpty
  | a :: as, sub => startsWithL (a :: as) sub || hasSub as sub

/-- The Python substring test (needle in haystack). -/
def strContains (hay sub : String) : Bool := hasSub hay.data sub.data

/-- Split a character list at newline characters (the lines of a file,
final newline producing a last empty line). -/
def splitLines : List Char → List (List Char)
  | [] => [[]]
  | c :: cs =>
      if c = '\n' then [] :: splitLines cs
      else
        match splitLines cs with
        | l :: ls => (c :: l) :: ls
        | [] => [[c]]

/-- Well-formedness of a world: every process identifier in use is
below the allocation counter, no identifier occurs twice, and the
registry and spawn log never repeat a process. Holds for World.init
and is preserved by every operation. -/
structure World.WF (w : World) : Prop where
  live_lt : ∀ p ∈ w.live, p < w.next
  live_nodup : w.live.Nodup
  procs_lt : ∀ e ∈ w.procs, e.2 < w.next
  procs_pid_nodup : (w.procs.map Prod.snd).Nodup
  spawned_lt : ∀ e ∈ w.spawned, e.2 < w.next
  spawned_pid_nodup : (w.spawned.map Prod.snd).Nodup

/-- Every process ever spawned for the tunnel id that is still alive is
the one currently registered for that id: the registry has never leaked
a live process for the id. Holds for World.init and is preserved by
start_tunnel and stop_tunnel. -/
def startInv (w : World) (tid : String) : Prop :=
  ∀ e ∈ w.spawned, e.1 = tid → e.2 ∈ w.live → lookupTid w.procs tid = some e.2

/-- FRPClientManager.start_tunnel renders this config text (the server
address and port, section name, type, local ip, local port and custom
domain are the exact literals of the f-string). -/
def build_config (subdomain : String) (local_port : Nat) : String :=
  "[common]\nserver_addr = tunnel.ovream.com\nserver_port = 7000\n\n["
    ++ subdomain
    ++ "]\ntype = http\nlocal_ip = 127.0.0.1\nlocal_port = "
    ++ toString local_port
    ++ "\ncustom_domains = "
    ++ subdomain
    ++ ".tunnel.ovream.com\n"

/-- The platform-to-release-name mapping of download_frpc, including
the raised "Unsupported platform" case (none). -/
def platform_name (system machine : String) : Option String :=
  if system = "darwin" then
    if strContains machine "arm" = true ∨ strContains machine "aarch64" = true
    then some "darwin_arm64" else some "darwin_amd64"
  else if system = "linux" then
    if strContains machine "arm" = true
    then some "linux_arm64" else some "linux_amd64"
  else if system = "windows" then some "windows_amd64"
  else none

/-- The binary name download_frpc looks for in the extracted tree. -/
def frpc_name (system : String) : String :=
  if system = "windows" then "frpc.exe" else "frpc"

/-- Environment of a download_frpc run: the platform module's answers,
the HTTP status of the release download, and the os.walk view of the
extracted archive (each entry is a directory path with the plain files
it holds, in walk order). -/
structure DlEnv where
  system : String
  machine : String
  status : Nat
  walk : List (String × List String)
deriving DecidableEq

/-- The os.walk search of download_frpc: first directory whose file
list holds the binary name wins. -/
def findBinary : List (String × List String) → String → Option String
  | [], _ => none
  | (root, files) :: rest, nm =>
      if nm ∈ files then some (root ++ "/" ++ nm) else findBinary rest nm

/-- Observable effects of a successful download_frpc run. -/
structure DlOutcome where
  movedFrom : String
  madeExecutable : Bool
  removedScratch : Bool
  removedArchive : Bool
deriving DecidableEq

/-- FRPClientManager.download_frpc.  The unsupported-platform error is
raised before the try block and propagates unwrapped; download and
archive errors are wrapped by the except clause.  On success the binary
is moved from where the walk found it, chmod 0o755 is applied on
non-Windows systems, and the scratch directory and the downloaded
archive are removed. -/
def download_frpc (e : DlEnv) : Except String DlOutcome :=
  match platform_name e.system e.machine with
  | none => Except.error ("Unsupported platform: " ++ e.system)
  | some _ =>
      if e.status ≠ 200 then
        Except.error
          ("Failed to install FRP client: Failed to download FRP: "
            ++ toString e.status)
      else
        match findBinary e.walk (frpc_name e.system) with
        | none =>
            Except.error
              "Failed to install FRP client: FRP client binary not found in archive"
        | some p =>
            Except.ok
              { movedFrom := p,
                madeExecutable := if e.system = "windows" then false else true,
                removedScratch := true,
                removedArchive := true }

/-- Environment of ensure_frpc_installed: whether the binary already
exists at the per-user bin path, and the download environment used when
it does not. -/
structure InstEnv where
  present : Bool
  dl : DlEnv
deriving DecidableEq

/-- Result of an ensure_frpc_installed call: the returned value (or the
propagated error), the number of network calls performed, and the
posterior environment (a successful install leaves the binary present). -/
structure EnsureResult where
  result : Except String Bool
  netCalls : Nat
  env : InstEnv

/-- FRPClientManager.ensure_frpc_installed: return true at once when
the binary exists (no network), otherwise download it (one HTTP GET). -/
def ensure_frpc_installed (e : InstEnv) : EnsureResult :=
  if e.present = true then
    { result := Except.ok true, netCalls := 0, env := e }
  else
    match download_frpc e.dl with
    | Except.ok _ =>
        { result := Except.ok true, netCalls := 1,
          env := { e with present := true } }
    | Except.error m =>
        { result := Except.error m, netCalls := 1, env := e }

/-- Outcome of one TCP connect attempt to 127.0.0.1 on a port, as seen
by socket.connect_ex (which reports failures as error numbers instead
of raising). -/
inductive ConnectOutcome where
  | success
  | refused
  | timedOut
  | failed (code : Nat)
deriving DecidableEq

/-- The error number connect_ex returns for each in-range connection
outcome (0 on success, a nonzero errno otherwise; the concrete nonzero
values are irrelevant). -/
def connect_ex : ConnectOutcome → Nat
  | ConnectOutcome.success => 0
  | ConnectOutcome.refused => 111
  | ConnectOutcome.timedOut => 110
  | ConnectOutcome.failed code => code + 1

/-- socket.connect_ex on ('127.0.0.1', port) as a fallible call: for a
port in 0-65535 it returns an error number instead of raising, but for
a port outside that range the socket address conversion raises
OverflowError before any connect is attempted. -/
def connect_ex_run (net : Nat → ConnectOutcome) (port : Nat) :
    Except String Nat :=
  if port ≤ 65535 then Except.ok (connect_ex (net port))
  else Except.error "OverflowError: getsockaddrarg: port must be 0-65535."

/-- The boolean the probe computes for an in-range port: result == 0,
true exactly when the connect succeeded. -/
def is_port_available (net : Nat → ConnectOutcome) (port : Nat) : Bool :=
  decide (connect_ex (net port) = 0)

/-- DashboardScreen._is_port_available: result = sock.connect_ex(...)
then return result == 0, the finally clause closing the socket.  The
body sets no socket timeout (there is no settimeout call, so any bound
on the blocking connect is the operating system's), and it has no
except clause: an OverflowError raised by connect_ex for an
out-of-range port propagates to the caller. -/
def is_port_available_run (net : Nat → ConnectOutcome) (port : Nat) :
    Except String Bool :=
  match connect_ex_run net port with
  | Except.ok r => Except.ok (decide (r = 0))
  | Except.error m => Except.error m

/-- State of the AuthServer: the per-run session id and the stored key. -/
structure AuthState where
  session_id : String
  api_key : Option String
deriving DecidableEq

/-- A POST body for the auth callback as seen after request.json():
either the parse raised (malformed, with the exception text) or a dict
whose session_id and api_key fields may each be absent. -/
inductive CallbackBody where
  | malformed (msg : String)
  | fields (session_id : Option String) (api_key : Option String)
deriving DecidableEq

/-- AuthServer.handle_callback: store the key and answer 200 when the
body's session_id equals the server's, answer 400 leaving the key alone
otherwise, and answer 500 leaving the key alone when the body failed to
parse.  The result is (new state, HTTP status, message). -/
def handle_callback (st : AuthState) (body : CallbackBody) :
    AuthState × Nat × String :=
  match body with
  | CallbackBody.malformed msg => (st, 500, msg)
  | CallbackBody.fields sid key =>
      if sid = some st.session_id then
        ({ st with api_key := key }, 200, "API key received")
      else (st, 400, "Invalid session")

/-! Helper lemmas about the association-list dictionary. -/

theorem lookupTid_append (l1 l2 : List (String × Nat)) (k : String) :
    lookupTid (l1 ++ l2) k
      = match lookupTid l1 k with
        | some v => some v
        | none => lookupTid l2 k := by
  induction l1 with
  | nil => simp [lookupTid]
  | cons e rest ih =>
      obtain ⟨a, b⟩ := e
      by_cases h : a = k <;> simp [lookupTid, h, ih]

theorem lookupTid_eraseKey_self (l : List (String × Nat)) (k : String) :
    lookupTid (eraseKey l k) k = none := by
  induction l with
  | nil => simp [eraseKey, lookupTid]
  | cons e rest ih =>
      obtain ⟨a, b⟩ := e
      by_cases h : a = k <;> simp [eraseKey, lookupTid, h, ih]

theorem lookupTid_eraseKey_ne (l : List (String × Nat)) (k k' : String)
    (h : k' ≠ k) : lookupTid (eraseKey l k) k' = lookupTid l k' := by
  induction l with
  | nil => simp [eraseKey]
  | cons e rest ih =>
      obtain ⟨a, b⟩ := e
      by_cases ha : a = k
      · subst ha
        have : a ≠ k' := fun hc => h (hc ▸ rfl)
        simp [eraseKey, lookupTid, this, ih]
      · by_cases ha' : a = k'
        · subst ha'
          simp [eraseKey, lookupTid, ha, ih]
        · simp [eraseKey, lookupTid, ha, ha', ih]

theorem mem_of_mem_eraseKey {l : List (String × Nat)} {k : String}
    {e : String × Nat} (h : e ∈ eraseKey l k) : e ∈ l := by
  induction l with
  | nil => simp [eraseKey] at h
  | cons a rest ih =>
      obtain ⟨x, y⟩ := a
      by_cases hx : x = k
      · simp [eraseKey, hx] at h
        exact List.mem_cons_of_mem _ (ih h)
      · simp [eraseKey, hx] at h
        rcases h with h | h
        · simp [h]
        · exact List.mem_cons_of_mem _ (ih h)

theorem eraseKey_map_snd_sublist (l : List (String × Nat)) (k : String) :
    ((eraseKey l k).map Prod.snd).Sublist (l.map Prod.snd) := by
  induction l with
  | nil => simp [eraseKey]
  | cons a rest ih =>
      obtain ⟨x, y⟩ := a
      by_cases hx : x = k
      · simpa [eraseKey, hx] using ih.cons y
      · simpa [eraseKey, hx] using ih.cons₂ y

theorem lookupTid_mem {l : List (String × Nat)} {k : String} {v : Nat}
    (h : lookupTid l k = some v) : (k, v) ∈ l := by
  induction l with
  | nil => simp [lookupTid] at h
  | cons a rest ih =>
      obtain ⟨x, y⟩ := a
      by_cases hx : x = k
      · simp [lookupTid, hx] at h
        simp [hx, h]
      · simp [lookupTid, hx] at h
        exact List.mem_cons_of_mem _ (ih h)

theorem lookupTid_inj_pid {l : List (String × Nat)}
    (hnd : (l.map Prod.snd).Nodup) {k1 k2 : String} {p : Nat}
    (h1 : lookupTid l k1 = some p) (h2 : lookupTid l k2 = some p) :
    k1 = k2 := by
  induction l with
  | nil => simp [lookupTid] at h1
  | cons a rest ih =>
      obtain ⟨x, y⟩ := a
      simp only [List.map_cons, List.nodup_cons] at hnd
      obtain ⟨hy, hrest⟩ := hnd
      simp only [lookupTid] at h1 h2
      by_cases hx1 : x = k1
      · rw [if_pos hx1] at h1
        injection h1 with h1
        by_cases hx2 : x = k2
        · exact hx1.symm.trans hx2
        · rw [if_neg hx2] at h2
          exact absurd (List.mem_map_of_mem Prod.snd (lookupTid_mem h2))
            (h1 ▸ hy)
      · rw [if_neg hx1] at h1
        by_cases hx2 : x = k2
        · rw [if_pos hx2] at h2
          injection h2 with h2
          exact absurd (List.mem_map_of_mem Prod.snd (lookupTid_mem h1))
            (h2 ▸ hy)
        · rw [if_neg hx2] at h2
          exact ih hrest h1 h2

/-! Helper lemmas about the substring test. -/

theorem startsWithL_self_append (sub suf : List Char) :
    startsWithL (sub ++ suf) sub = true := by
  induction sub with
  | nil => cases suf <;> rfl
  | cons b bs ih => simp [startsWithL, ih]

theorem hasSub_self_append (sub suf : List Char) :
    hasSub (sub ++ suf) sub = true := by
  cases sub with
  | nil =>
      cases suf with
      | nil => rfl
      | cons c cs => simp [hasSub, startsWithL]
  | cons b bs =>
      have h := startsWithL_self_append (b :: bs) suf
      simp only [List.cons_append] at h
      simp [hasSub, h]

theorem hasSub_append_left (pre : List Char) {hay sub : List Char}
    (h : hasSub hay sub = true) : hasSub (pre ++ hay) sub = true := by
  induction pre with
  | nil => simpa using h
  | cons a as ih => simp [hasSub, ih]

theorem hasSub_decomp (pre sub suf : List Char) :
    hasSub (pre ++ (sub ++ suf)) sub = true :=
  hasSub_append_left pre (hasSub_self_append sub suf)

theorem strContains_decomp (pre sub suf : String) :
    strContains (pre ++ (sub ++ suf)) sub = true := by
  unfold strContains
  have h : (pre ++ (sub ++ suf)).data = pre.data ++ (sub.data ++ suf.data) := by
    simp [String.data_append]
  rw [h]
  exact hasSub_decomp _ _ _

theorem strContains_of_eq (hay pre sub suf : String)
    (h : hay = pre ++ (sub ++ suf)) : strContains hay sub = true :=
  h ▸ strContains_decomp pre sub suf

/-! Helper lemmas about stop_tunnel and start_tunnel. -/

theorem stop_next (w : World) (tid : String) :
    (stop_tunnel w tid).1.next = w.next := by
  cases h : lookupTid w.procs tid <;> simp [stop_tunnel, h]

theorem stop_reports (w : World) (tid : String) :
    (stop_tunnel w tid).1.reports = w.reports := by
  cases h : lookupTid w.procs tid <;> simp [stop_tunnel, h]

theorem stop_spawned (w : World) (tid : String) :
    (stop_tunnel w tid).1.spawned = w.spawned := by
  cases h : lookupTid w.procs tid <;> simp [stop_tunnel, h]

theorem stop_live_subset {w : World} {tid : String} {p : Nat}
    (h : p ∈ (stop_tunnel w tid).1.live) : p ∈ w.live := by
  cases hl : lookupTid w.procs tid <;> simp [stop_tunnel, hl] at h
  · exact h
  · exact List.mem_of_mem_erase h

theorem stop_lookup_self (w : World) (tid : String) :
    lookupTid (stop_tunnel w tid).1.procs tid = none := by
  cases h : lookupTid w.procs tid with
  | none => simp [stop_tunnel, h]
  | some pid => simp [stop_tunnel, h, lookupTid_eraseKey_self]

theorem valid_not_falsy {t : Tunnel} (ht : t.valid) :
    ¬(t.id = "" ∨ t.subdomain = "" ∨ t.remote_port = 0) := by
  obtain ⟨h1, h2, h3⟩ := ht
  push_neg
  exact ⟨h1, h2, h3⟩

/-- Closed form of start_tunnel when the tunnel data is valid and the
spawned process dies within the grace period. -/
theorem start_tunnel_spawn_fail (env : Env) (w : World) (t : Tunnel)
    (lp : Nat) (ht : t.valid) (hs : env.spawnOk w.next = false) :
    start_tunnel env w t lp =
      (⟨w.next + 1,
        (stop_tunnel w t.id).1.live,
        (stop_tunnel w t.id).1.procs ++ [(t.id, w.next)],
        w.spawned ++ [(t.id, w.next)],
        insertConfig (stop_tunnel w t.id).1.configs t.id,
        w.reports⟩,
       Except.error (startErrMsg (env.stderrOf w.next))) := by
  rw [start_tunnel, if_neg (valid_not_falsy ht)]
  simp only [stop_next, stop_reports, stop_spawned, hs]
  simp

/-- Closed form of start_tunnel when the tunnel data is valid and the
spawned process survives the grace period. -/
theorem start_tunnel_spawn_ok (env : Env) (w : World) (t : Tunnel)
    (lp : Nat) (ht : t.valid) (hs : env.spawnOk w.next = true) :
    start_tunnel env w t lp =
      (⟨w.next + 1,
        w.next :: (stop_tunnel w t.id).1.live,
        (stop_tunnel w t.id).1.procs ++ [(t.id, w.next)],
        w.spawned ++ [(t.id, w.next)],
        insertConfig (stop_tunnel w t.id).1.configs t.id,
        w.reports⟩,
       Except.ok ()) := by
  rw [start_tunnel, if_neg (valid_not_falsy ht)]
  simp only [stop_next, stop_reports, stop_spawned, hs]
  simp

/-! Counting lemmas for registry entries. -/

theorem countKey_append (l1 l2 : List (String × Nat)) (k : String) :
    countKey (l1 ++ l2) k = countKey l1 k + countKey l2 k := by
  simp [countKey, List.filter_append]

theorem countKey_eq_zero_of_lookup_none {l : List (String × Nat)}
    {k : String} (h : lookupTid l k = none) : countKey l k = 0 := by
  induction l with
  | nil => rfl
  | cons e rest ih =>
      obtain ⟨x, y⟩ := e
      by_cases hx : x = k
      · simp [lookupTid, hx] at h
      · simp [lookupTid, hx] at h
        simp [countKey, hx, List.filter_cons]
        simpa [countKey] using ih h

/-! Well-formedness preservation. -/

theorem wf_init : World.init.WF := by
  constructor <;> simp [World.init]

theorem wf_stop {w : World} (hwf : w.WF) (tid : String) :
    (stop_tunnel w tid).1.WF := by
  cases hl : lookupTid w.procs tid with
  | none => simpa [stop_tunnel, hl] using hwf
  | some pid =>
      simp only [stop_tunnel, hl]
      exact
        { live_lt := fun p hp => hwf.live_lt p (List.mem_of_mem_erase hp)
          live_nodup :=
            hwf.live_nodup.sublist (List.erase_sublist pid w.live)
          procs_lt := fun e he => hwf.procs_lt e (mem_of_mem_eraseKey he)
          procs_pid_nodup :=
            hwf.procs_pid_nodup.sublist (eraseKey_map_snd_sublist w.procs tid)
          spawned_lt := hwf.spawned_lt
          spawned_pid_nodup := hwf.spawned_pid_nodup }

theorem stop_live_nodup {w : World} (hwf : w.WF) (tid : String) :
    (stop_tunnel w tid).1.live.Nodup := (wf_stop hwf tid).live_nodup

theorem wf_start {env : Env} {w : World} (hwf : w.WF) (t : Tunnel)
    (lp : Nat) : (start_tunnel env w t lp).1.WF := by
  by_cases hv : t.id = "" ∨ t.subdomain = "" ∨ t.remote_port = 0
  · rw [start_tunnel, if_pos hv]
    exact hwf
  · have ht : t.valid := by
      unfold Tunnel.valid
      push_neg at hv
      exact hv
    have hS := wf_stop hwf t.id
    have hSnext : (stop_tunnel w t.id).1.next = w.next := stop_next w t.id
    have hlive_lt : ∀ p ∈ (stop_tunnel w t.id).1.live, p < w.next := by
      intro p hp
      have := hS.live_lt p hp
      rwa [hSnext] at this
    have hprocs_lt : ∀ e ∈ (stop_tunnel w t.id).1.procs, e.2 < w.next := by
      intro e he
      have := hS.procs_lt e he
      rwa [hSnext] at this
    have hprocs_nodup :
        (((stop_tunnel w t.id).1.procs ++ [(t.id, w.next)]).map
          Prod.snd).Nodup := by
      rw [List.map_append]
      rw [List.nodup_append]
      refine ⟨hS.procs_pid_nodup, by simp, ?_⟩
      intro a ha hb
      simp at hb
      subst hb
      obtain ⟨e, he, hee⟩ := List.mem_map.mp ha
      exact absurd (hee ▸ hprocs_lt e he) (lt_irrefl _)
    have hspawned_nodup :
        ((w.spawned ++ [(t.id, w.next)]).map Prod.snd).Nodup := by
      rw [List.map_append]
      rw [List.nodup_append]
      refine ⟨hwf.spawned_pid_nodup, by simp, ?_⟩
      intro a ha hb
      simp at hb
      subst hb
      obtain ⟨e, he, hee⟩ := List.mem_map.mp ha
      exact absurd (hee ▸ hwf.spawned_lt e he) (lt_irrefl _)
    cases hs : env.spawnOk w.next with
    | true =>
        rw [start_tunnel_spawn_ok env w t lp ht hs]
        exact
          { live_lt := by
              intro p hp
              rcases List.mem_cons.mp hp with hp | hp
              · exact hp ▸ Nat.lt_succ_self w.next
              · exact Nat.lt_succ_of_lt (hlive_lt p hp)
            live_nodup := by
              refine List.Nodup.cons ?_ hS.live_nodup
              intro hmem
              exact absurd (hlive_lt _ hmem) (lt_irrefl _)
            procs_lt := by
              intro e he
              rcases List.mem_append.mp he with he | he
              · exact Nat.lt_succ_of_lt (hprocs_lt e he)
              · simp only [List.mem_singleton] at he
                subst he
                exact Nat.lt_succ_self w.next
            procs_pid_nodup := hprocs_nodup
            spawned_lt := by
              intro e he
              rcases List.mem_append.mp he with he | he
              · exact Nat.lt_succ_of_lt (hwf.spawned_lt e he)
              · simp only [List.mem_singleton] at he
                subst he
                exact Nat.lt_succ_self w.next
            spawned_pid_nodup := hspawned_nodup }
    | false =>
        rw [start_tunnel_spawn_fail env w t lp ht hs]
        exact
          { live_lt := fun p hp => Nat.lt_succ_of_lt (hlive_lt p hp)
            live_nodup := hS.live_nodup
            procs_lt := by
              intro e he
              rcases List.mem_append.mp he with he | he
              · exact Nat.lt_succ_of_lt (hprocs_lt e he)
              · simp only [List.mem_singleton] at he
                subst he
                exact Nat.lt_succ_self w.next
            procs_pid_nodup := hprocs_nodup
            spawned_lt := by
              intro e he
              rcases List.mem_append.mp he with he | he
              · exact Nat.lt_succ_of_lt (hwf.spawned_lt e he)
              · simp only [List.mem_singleton] at he
                subst he
                exact Nat.lt_succ_self w.next
            spawned_pid_nodup := hspawned_nodup }

theorem connectedReports_append (rs : List (String × RStatus))
    (x : String × RStatus) (tid : String) :
    connectedReports (rs ++ [x]) tid
      = connectedReports rs tid
          + (if x.1 = tid ∧ x.2 = RStatus.connected then 1 else 0) := by
  simp only [connectedReports, List.filter_append, List.length_append]
  split <;> rename_i h <;> simp [h]

theorem wf_report {w : World} (hwf : w.WF) (tid : String) (s : RStatus) :
    (report w tid s).WF :=
  { live_lt := hwf.live_lt
    live_nodup := hwf.live_nodup
    procs_lt := hwf.procs_lt
    procs_pid_nodup := hwf.procs_pid_nodup
    spawned_lt := hwf.spawned_lt
    spawned_pid_nodup := hwf.spawned_pid_nodup }

/-- Stopping a different tunnel id never changes whether the process
registered for this id is alive. -/
theorem stop_mem_live_iff {w : World} (hwf : w.WF) {uid tid : String}
    (hne : uid ≠ tid) {p : Nat} (hlt : lookupTid w.procs tid = some p) :
    p ∈ (stop_tunnel w uid).1.live ↔ p ∈ w.live := by
  cases hl : lookupTid w.procs uid with
  | none => simp [stop_tunnel, hl]
  | some pid0 =>
      have hpne : p ≠ pid0 := by
        intro hc
        have h1 : lookupTid w.procs uid = some p := by rw [hl, hc]
        exact hne (lookupTid_inj_pid hwf.procs_pid_nodup h1 hlt)
      simp [stop_tunnel, hl, List.mem_erase_of_ne hpne]

/-- Stopping a different tunnel id leaves this id's registry binding
and status untouched. -/
theorem stop_status_frame {w : World} (hwf : w.WF) {uid tid : String}
    (hne : uid ≠ tid) :
    lookupTid (stop_tunnel w uid).1.procs tid = lookupTid w.procs tid ∧
    get_tunnel_status (stop_tunnel w uid).1 tid = get_tunnel_status w tid := by
  have hL : lookupTid (stop_tunnel w uid).1.procs tid
      = lookupTid w.procs tid := by
    cases hl : lookupTid w.procs uid with
    | none => simp [stop_tunnel, hl]
    | some pid0 =>
        simp [stop_tunnel, hl,
          lookupTid_eraseKey_ne w.procs uid tid (fun hc => hne hc.symm)]
  refine ⟨hL, ?_⟩
  unfold get_tunnel_status
  rw [hL]
  cases hlt : lookupTid w.procs tid with
  | none => rfl
  | some p =>
      have hmem := stop_mem_live_iff hwf hne hlt
      by_cases hp : p ∈ w.live
      · simp [hp, hmem.mpr hp]
      · have hq : p ∉ (stop_tunnel w uid).1.live := fun hc => hp (hmem.mp hc)
        simp [hp, hq]

/-- Starting a different tunnel id leaves this id's registry binding,
status and the report log untouched (start never reports by itself). -/
theorem start_status_frame (env : Env) {w : World} {u : Tunnel} (lp : Nat)
    (hwf : w.WF) {tid : String} (hne : u.id ≠ tid) :
    lookupTid (start_tunnel env w u lp).1.procs tid = lookupTid w.procs tid ∧
    get_tunnel_status (start_tunnel env w u lp).1 tid
      = get_tunnel_status w tid ∧
    (start_tunnel env w u lp).1.reports = w.reports := by
  by_cases hv : u.id = "" ∨ u.subdomain = "" ∨ u.remote_port = 0
  · rw [start_tunnel, if_pos hv]
    exact ⟨rfl, rfl, rfl⟩
  · have ht : u.valid := by
      unfold Tunnel.valid
      push_neg at hv
      exact hv
    obtain ⟨hstopL, hstopS⟩ := stop_status_frame hwf hne
    have happ : lookupTid ((stop_tunnel w u.id).1.procs ++ [(u.id, w.next)]) tid
        = lookupTid w.procs tid := by
      rw [lookupTid_append, hstopL]
      cases hlt : lookupTid w.procs tid with
      | some v => rfl
      | none => simp [lookupTid, hne]
    cases hs : env.spawnOk w.next with
    | true =>
        rw [start_tunnel_spawn_ok env w u lp ht hs]
        refine ⟨happ, ?_, rfl⟩
        unfold get_tunnel_status
        rw [show ((⟨w.next + 1, w.next :: (stop_tunnel w u.id).1.live,
              (stop_tunnel w u.id).1.procs ++ [(u.id, w.next)],
              w.spawned ++ [(u.id, w.next)],
              insertConfig (stop_tunnel w u.id).1.configs u.id,
              w.reports⟩ : World)).procs
            = (stop_tunnel w u.id).1.procs ++ [(u.id, w.next)] from rfl]
        rw [happ]
        cases hlt : lookupTid w.procs tid with
        | none => rfl
        | some p =>
            have hp_lt : p < w.next := hwf.procs_lt _ (lookupTid_mem hlt)
            have hpne : p ≠ w.next := Nat.ne_of_lt hp_lt
            have hmem := stop_mem_live_iff hwf hne hlt
            by_cases hp : p ∈ w.live
            · simp [List.mem_cons, hpne, hmem.mpr hp, hp]
            · have hq : p ∉ (stop_tunnel w u.id).1.live := fun hc =>
                hp (hmem.mp hc)
              simp [List.mem_cons, hpne, hq, hp]
    | false =>
        rw [start_tunnel_spawn_fail env w u lp ht hs]
        refine ⟨happ, ?_, rfl⟩
        unfold get_tunnel_status
        rw [show ((⟨w.next + 1, (stop_tunnel w u.id).1.live,
              (stop_tunnel w u.id).1.procs ++ [(u.id, w.next)],
              w.spawned ++ [(u.id, w.next)],
              insertConfig (stop_tunnel w u.id).1.configs u.id,
              w.reports⟩ : World)).procs
            = (stop_tunnel w u.id).1.procs ++ [(u.id, w.next)] from rfl]
        rw [happ]
        cases hlt : lookupTid w.procs tid with
        | none => rfl
        | some p =>
            have hmem := stop_mem_live_iff hwf hne hlt
            by_cases hp : p ∈ w.live
            · simp [hmem.mpr hp, hp]
            · have hq : p ∉ (stop_tunnel w u.id).1.live := fun hc =>
                hp (hmem.mp hc)
              simp [hq, hp]

/-- After stop_tunnel tid, no process ever spawned for tid is alive any
more (the only live one, per startInv, was the registered one, and stop
kills it). -/
theorem spawned_dead_after_stop {w : World} (hwf : w.WF) {tid : String}
    (hinv : startInv w tid) :
    ∀ e ∈ w.spawned, e.1 = tid → e.2 ∉ (stop_tunnel w tid).1.live := by
  intro e he htid hmem
  have hw : e.2 ∈ w.live := stop_live_subset hmem
  have hlk := hinv e he htid hw
  cases hl : lookupTid w.procs tid with
  | none => rw [hl] at hlk; exact Option.noConfusion hlk
  | some pid0 =>
      rw [hl] at hlk
      injection hlk with hlk
      have hliveS : (stop_tunnel w tid).1.live = w.live.erase pid0 := by
        simp [stop_tunnel, hl]
      rw [hliveS, hlk] at hmem
      exact (hwf.live_nodup.mem_erase_iff.mp hmem).1 rfl

/-- One successful start leaves exactly one live process and exactly
one registry binding for the tunnel id, and preserves the invariants. -/
theorem start_ok_step {env : Env} {w : World} {t : Tunnel} {lp : Nat}
    (hwf : w.WF) (hinv : startInv w t.id) (ht : t.valid)
    (hs : env.spawnOk w.next = true) :
    liveSpawnedFor (start_tunnel env w t lp).1 t.id = 1 ∧
    countKey (start_tunnel env w t lp).1.procs t.id = 1 ∧
    (start_tunnel env w t lp).1.WF ∧
    startInv (start_tunnel env w t lp).1 t.id := by
  have hdead := spawned_dead_after_stop hwf hinv
  refine ⟨?_, ?_, wf_start hwf t lp, ?_⟩
  · rw [start_tunnel_spawn_ok env w t lp ht hs]
    show ((w.spawned ++ [(t.id, w.next)]).filter
        (fun e => decide (e.1 = t.id ∧
          e.2 ∈ w.next :: (stop_tunnel w t.id).1.live))).length = 1
    rw [List.filter_append]
    have h0 : w.spawned.filter
        (fun e => decide (e.1 = t.id ∧
          e.2 ∈ w.next :: (stop_tunnel w t.id).1.live)) = [] := by
      rw [List.filter_eq_nil_iff]
      intro e he
      simp only [decide_eq_true_eq, not_and]
      intro h1 h2
      rcases List.mem_cons.mp h2 with h2 | h2
      · exact absurd (h2 ▸ hwf.spawned_lt e he) (lt_irrefl _)
      · exact hdead e he h1 h2
    rw [h0]
    simp
  · rw [start_tunnel_spawn_ok env w t lp ht hs]
    show countKey ((stop_tunnel w t.id).1.procs ++ [(t.id, w.next)]) t.id = 1
    rw [countKey_append,
      countKey_eq_zero_of_lookup_none (stop_lookup_self w t.id)]
    simp [countKey]
  · rw [start_tunnel_spawn_ok env w t lp ht hs]
    unfold startInv
    intro e he htid hmem
    rcases List.mem_append.mp he with he | he
    · rcases List.mem_cons.mp hmem with h2 | h2
      · exact absurd (h2 ▸ hwf.spawned_lt e he) (lt_irrefl _)
      · exact absurd h2 (hdead e he htid)
    · simp only [List.mem_singleton] at he
      subst he
      rw [show ((⟨w.next + 1, w.next :: (stop_tunnel w t.id).1.live,
            (stop_tunnel w t.id).1.procs ++ [(t.id, w.next)],
            w.spawned ++ [(t.id, w.next)],
            insertConfig (stop_tunnel w t.id).1.configs t.id,
            w.reports⟩ : World)).procs
          = (stop_tunnel w t.id).1.procs ++ [(t.id, w.next)] from rfl]
      rw [lookupTid_append, stop_lookup_self]
      simp [lookupTid]

theorem reconcileOne_none (env : Env) (w : World) (t : Tunnel)
    (hlp : t.local_port = none) : reconcileOne env w t = w := by
  unfold reconcileOne
  rw [hlp]

theorem reconcileOne_some (env : Env) (w : World) (t : Tunnel) (lp : Nat)
    (hlp : t.local_port = some lp) :
    reconcileOne env w t =
      if env.portOpen lp = true ∧
          get_tunnel_status w t.id ≠ TStatus.connected then
        match start_tunnel env w t lp with
        | (w1, Except.ok _) => report w1 t.id RStatus.connected
        | (w1, Except.error _) => w1
      else if env.portOpen lp = false ∧
          get_tunnel_status w t.id = TStatus.connected then
        report (stop_tunnel w t.id).1 t.id RStatus.port_down
      else if env.portOpen lp = false then
        report w t.id RStatus.port_down
      else w := by
  unfold reconcileOne
  rw [hlp]

theorem get_status_report (w : World) (tid : String) (s : RStatus)
    (tid2 : String) :
    get_tunnel_status (report w tid s) tid2 = get_tunnel_status w tid2 := rfl

theorem start_ok_status_self {env : Env} {w : World} {t : Tunnel} {lp : Nat}
    (ht : t.valid) (hs : env.spawnOk w.next = true) :
    get_tunnel_status (start_tunnel env w t lp).1 t.id = TStatus.connected := by
  rw [start_tunnel_spawn_ok env w t lp ht hs]
  unfold get_tunnel_status
  rw [show ((⟨w.next + 1, w.next :: (stop_tunnel w t.id).1.live,
        (stop_tunnel w t.id).1.procs ++ [(t.id, w.next)],
        w.spawned ++ [(t.id, w.next)],
        insertConfig (stop_tunnel w t.id).1.configs t.id,
        w.reports⟩ : World)).procs
      = (stop_tunnel w t.id).1.procs ++ [(t.id, w.next)] from rfl]
  rw [lookupTid_append, stop_lookup_self]
  simp [lookupTid, List.mem_cons]

theorem start_reports_unchanged {env : Env} {w : World} {t : Tunnel}
    {lp : Nat} (ht : t.valid) :
    (start_tunnel env w t lp).1.reports = w.reports := by
  cases hs : env.spawnOk w.next with
  | true => rw [start_tunnel_spawn_ok env w t lp ht hs]
  | false => rw [start_tunnel_spawn_fail env w t lp ht hs]

theorem wf_reconcileOne {env : Env} {w : World} (hwf : w.WF) (t : Tunnel) :
    (reconcileOne env w t).WF := by
  cases hlp : t.local_port with
  | none => rw [reconcileOne_none env w t hlp]; exact hwf
  | some lp =>
      rw [reconcileOne_some env w t lp hlp]
      by_cases h1 : env.portOpen lp = true ∧
          get_tunnel_status w t.id ≠ TStatus.connected
      · rw [if_pos h1]
        cases hst : start_tunnel env w t lp with
        | mk w1 r =>
            have hw1 : w1 = (start_tunnel env w t lp).1 := by rw [hst]
            cases r with
            | ok v =>
                exact wf_report (by rw [hw1]; exact wf_start hwf t lp) _ _
            | error m =>
                rw [hw1]
                exact wf_start hwf t lp
      · rw [if_neg h1]
        by_cases h2 : env.portOpen lp = false ∧
            get_tunnel_status w t.id = TStatus.connected
        · rw [if_pos h2]
          exact wf_report (wf_stop hwf t.id) _ _
        · rw [if_neg h2]
          by_cases h3 : env.portOpen lp = false
          · rw [if_pos h3]
            exact wf_report hwf _ _
          · rw [if_neg h3]
            exact hwf

/-- Reconciling a different tunnel id leaves this id's registry
binding, status and count of connected reports untouched. -/
theorem reconcileOne_frame (env : Env) {w : World} {u : Tunnel}
    (hwf : w.WF) {tid : String} (hne : u.id ≠ tid) :
    lookupTid (reconcileOne env w u).procs tid = lookupTid w.procs tid ∧
    get_tunnel_status (reconcileOne env w u) tid = get_tunnel_status w tid ∧
    connectedReports (reconcileOne env w u).reports tid
      = connectedReports w.reports tid := by
  cases hlp : u.local_port with
  | none => rw [reconcileOne_none env w u hlp]; exact ⟨rfl, rfl, rfl⟩
  | some lp =>
      rw [reconcileOne_some env w u lp hlp]
      by_cases h1 : env.portOpen lp = true ∧
          get_tunnel_status w u.id ≠ TStatus.connected
      · rw [if_pos h1]
        obtain ⟨hsL, hsS, hsR⟩ := start_status_frame env lp hwf hne
        cases hst : start_tunnel env w u lp with
        | mk w1 r =>
            have hw1 : w1 = (start_tunnel env w u lp).1 := by rw [hst]
            cases r with
            | ok v =>
                refine ⟨?_, ?_, ?_⟩
                · show lookupTid w1.procs tid = lookupTid w.procs tid
                  rw [hw1]
                  exact hsL
                · rw [get_status_report, hw1]
                  exact hsS
                · rw [show (report w1 u.id RStatus.connected).reports
                        = w1.reports ++ [(u.id, RStatus.connected)] from rfl,
                    connectedReports_append]
                  rw [if_neg (fun hc => hne hc.1), hw1, hsR]
                  exact Nat.add_zero _
            | error m =>
                rw [hw1]
                exact ⟨hsL, hsS, by rw [hsR]⟩
      · rw [if_neg h1]
        obtain ⟨hpL, hpS⟩ := stop_status_frame hwf hne
        by_cases h2 : env.portOpen lp = false ∧
            get_tunnel_status w u.id = TStatus.connected
        · rw [if_pos h2]
          refine ⟨hpL, ?_, ?_⟩
          · rw [get_status_report]
            exact hpS
          · rw [show (report (stop_tunnel w u.id).1 u.id
                    RStatus.port_down).reports
                  = (stop_tunnel w u.id).1.reports ++ [(u.id, RStatus.port_down)]
                from rfl,
              connectedReports_append]
            rw [if_neg (fun hc => hne hc.1), stop_reports]
            exact Nat.add_zero _
        · rw [if_neg h2]
          by_cases h3 : env.portOpen lp = false
          · rw [if_pos h3]
            refine ⟨rfl, rfl, ?_⟩
            rw [show (report w u.id RStatus.port_down).reports
                  = w.reports ++ [(u.id, RStatus.port_down)] from rfl,
              connectedReports_append]
            rw [if_neg (fun hc => hne hc.1)]
            exact Nat.add_zero _
          · rw [if_neg h3]
            exact ⟨rfl, rfl, rfl⟩

/-- Folding the reconciliation step over tunnels with other ids leaves
this id's registry binding, status and connected-report count alone. -/
theorem fold_frame (env : Env) (tid : String) :
    ∀ (ts : List Tunnel) (w : World), w.WF → (∀ u ∈ ts, u.id ≠ tid) →
      lookupTid (ts.foldl (reconcileOne env) w).procs tid
          = lookupTid w.procs tid ∧
      get_tunnel_status (ts.foldl (reconcileOne env) w) tid
          = get_tunnel_status w tid ∧
      connectedReports (ts.foldl (reconcileOne env) w).reports tid
          = connectedReports w.reports tid := by
  intro ts
  induction ts with
  | nil => intro w _ _; exact ⟨rfl, rfl, rfl⟩
  | cons u rest ih =>
      intro w hwf hne
      have h1 := reconcileOne_frame env hwf (hne u (List.mem_cons_self u rest))
      have h2 := ih (reconcileOne env w u) (wf_reconcileOne hwf u)
        (fun v hv => hne v (List.mem_cons_of_mem u hv))
      exact ⟨h2.1.trans h1.1, h2.2.1.trans h1.2.1, h2.2.2.trans h1.2.2⟩

/-- When a valid tunnel's port is open, its id is not yet registered
and the spawn succeeds, the reconciliation step starts it: its status
becomes connected and exactly one new connected report is attempted. -/
theorem reconcileOne_progress {env : Env} {w : World} {t : Tunnel} {lp : Nat}
    (ht : t.valid) (hlp : t.local_port = some lp)
    (hopen : env.portOpen lp = true) (hs : env.spawnOk w.next = true)
    (hnone : lookupTid w.procs t.id = none) :
    get_tunnel_status (reconcileOne env w t) t.id = TStatus.connected ∧
    connectedReports (reconcileOne env w t).reports t.id
      = connectedReports w.reports t.id + 1 := by
  have hcur : get_tunnel_status w t.id = TStatus.not_started := by
    unfold get_tunnel_status
    rw [hnone]
  rw [reconcileOne_some env w t lp hlp]
  rw [if_pos ⟨hopen, by rw [hcur]; exact fun hc => TStatus.noConfusion hc⟩]
  cases hst : start_tunnel env w t lp with
  | mk w1 r =>
      have hok := start_tunnel_spawn_ok env w t lp ht hs
      rw [hst] at hok
      injection hok with hok1 hok2
      cases r with
      | error m => exact absurd hok2 (by simp)
      | ok v =>
          have hw1 : w1 = (start_tunnel env w t lp).1 := by rw [hst]
          refine ⟨?_, ?_⟩
          · rw [get_status_report, hw1]
            exact start_ok_status_self ht hs
          · rw [show (report w1 t.id RStatus.connected).reports
                  = w1.reports ++ [(t.id, RStatus.connected)] from rfl,
              connectedReports_append]
            rw [if_pos ⟨rfl, rfl⟩, hw1, start_reports_unchanged ht]

/-- A full fold of the reconciliation step from a world where none of
the tunnels is registered connects every tunnel whose port is open and
attempts exactly one connected report for it. -/
theorem pass_connects {env : Env} :
    ∀ (ts : List Tunnel) (w : World), w.WF →
      (∀ p, env.spawnOk p = true) →
      (∀ u ∈ ts, u.valid) → (ts.map Tunnel.id).Nodup →
      (∀ u ∈ ts, lookupTid w.procs u.id = none) →
      ∀ t ∈ ts, ∀ lp, t.local_port = some lp → env.portOpen lp = true →
        get_tunnel_status (ts.foldl (reconcileOne env) w) t.id
          = TStatus.connected ∧
        connectedReports (ts.foldl (reconcileOne env) w).reports t.id
          = connectedReports w.reports t.id + 1 := by
  intro ts
  induction ts with
  | nil => intro w _ _ _ _ _ t ht; exact absurd ht (List.not_mem_nil t)
  | cons u rest ih =>
      intro w hwf hspawn hvalid hnodup hfresh t htmem lp hlp hopen
      simp only [List.map_cons, List.nodup_cons] at hnodup
      obtain ⟨hunotin, hnodup_rest⟩ := hnodup
      rcases List.mem_cons.mp htmem with rfl | htmem
      · -- t is the head: progress then frame over the rest
        obtain ⟨hstat, hcount⟩ := reconcileOne_progress
          (hvalid t (List.mem_cons_self t rest)) hlp hopen (hspawn w.next)
          (hfresh t (List.mem_cons_self t rest))
        have hframe := fold_frame env t.id rest (reconcileOne env w t)
          (wf_reconcileOne hwf t)
          (fun v hv hc => hunotin (by
            rw [← hc]
            exact List.mem_map_of_mem Tunnel.id hv))
        refine ⟨hframe.2.1.trans hstat, hframe.2.2.trans ?_⟩
        exact hcount
      · -- t is in the tail: frame the head step, then induct
        have hne : u.id ≠ t.id := fun hc =>
          hunotin (hc ▸ List.mem_map_of_mem Tunnel.id htmem)
        have hstep := reconcileOne_frame env hwf hne
        have hih := ih (reconcileOne env w u) (wf_reconcileOne hwf u)
          hspawn
          (fun v hv => hvalid v (List.mem_cons_of_mem u hv))
          hnodup_rest
          (fun v hv => by
            have hvne : u.id ≠ v.id := by
              intro hc
              rw [hc] at hunotin
              exact hunotin (List.mem_map_of_mem Tunnel.id hv)
            exact (reconcileOne_frame env hwf hvne).1.trans
              (hfresh v (List.mem_cons_of_mem u hv)))
          t htmem lp hlp hopen
        refine ⟨hih.1, hih.2.trans ?_⟩
        rw [hstep.2.2]

/-- The per-tunnel body of auto_connect_tunnels computes exactly the
decision table of the specification and then executes the decided
action. -/
theorem reconcileOne_refines_spec :
    ∀ (env : Env) (w : World) (t : Tunnel),
      reconcileOne env w t
        = match t.local_port with
          | none => w
          | some lp =>
              runAction env w t lp
                (specAction (env.portOpen lp) (get_tunnel_status w t.id)) := by
  intro env w t
  cases hlp : t.local_port with
  | none => rw [reconcileOne_none env w t hlp]
  | some lp =>
      rw [reconcileOne_some env w t lp hlp]
      show _ = runAction env w t lp
        (specAction (env.portOpen lp) (get_tunnel_status w t.id))
      by_cases h1 : env.portOpen lp = true ∧
          get_tunnel_status w t.id ≠ TStatus.connected
      · rw [if_pos h1,
          show specAction (env.portOpen lp) (get_tunnel_status w t.id)
              = SAction.START from by unfold specAction; rw [if_pos h1]]
        rfl
      · rw [if_neg h1]
        by_cases h2 : env.portOpen lp = false ∧
            get_tunnel_status w t.id = TStatus.connected
        · rw [if_pos h2,
            show specAction (env.portOpen lp) (get_tunnel_status w t.id)
                = SAction.STOP from by
              unfold specAction; rw [if_neg h1, if_pos h2]]
          rfl
        · rw [if_neg h2]
          by_cases h3 : env.portOpen lp = false
          · rw [if_pos h3,
              show specAction (env.portOpen lp) (get_tunnel_status w t.id)
                  = SAction.REPORT_PORT_DOWN from by
                unfold specAction; rw [if_neg h1, if_neg h2, if_pos h3]]
            rfl
          · rw [if_neg h3,
              show specAction (env.portOpen lp) (get_tunnel_status w t.id)
                  = SAction.NONE from by
                unfold specAction; rw [if_neg h1, if_neg h2, if_neg h3]]
            rfl

/-! Concrete fixtures used by witnesses and counterexamples. -/

/-- Environment where every port is open, every spawn survives and the
forwarding binary installs fine. -/
def envAllOk : Env :=
  { portOpen := fun _ => true, spawnOk := fun _ => true,
    stderrOf := fun _ => "", installOk := true }

/-- Environment where the forwarding process dies at once with a
diagnostic on stderr. -/
def envSpawnDies : Env :=
  { portOpen := fun _ => true, spawnOk := fun _ => false,
    stderrOf := fun _ => "bind: address already in use", installOk := true }

/-- Environment where every port is closed and installing the binary
fails. -/
def envNoInstall : Env :=
  { portOpen := fun _ => false, spawnOk := fun _ => true,
    stderrOf := fun _ => "", installOk := false }

/-- A tunnel with a configured local port. -/
def tunnelA : Tunnel := ⟨"t1", "abc", 30001, some 3000⟩

/-- A second tunnel with a configured local port and a distinct id. -/
def tunnelB : Tunnel := ⟨"t2", "xyz", 30002, some 3001⟩

/-- A world in which tunnelA has a live registered forwarding process. -/
def worldConnectedA : World :=
  ⟨1, [0], [("t1", 0)], [("t1", 0)], ["t1"], []⟩

/-! Claim theorems. -/

/-- C7 counterexample: at port 70000 the probe does not return a
boolean at all — connect_ex raises OverflowError (the source sets no
timeout and has no except clause, so the raise reaches the caller),
refuting the claim that for every port value the probe never raises. -/
theorem port_probe_overflow_cex :
    is_port_available_run (fun _ => ConnectOutcome.success) 70000
      = Except.error "OverflowError: getsockaddrarg: port must be 0-65535." :=
  rfl

/-- C7 amended: for every port in the valid range 0-65535 the probe
performs a blocking connect_ex to 127.0.0.1:port (the source sets no
socket timeout, so any bound on the wait is the operating system's,
not the code's) and returns a boolean without raising: true exactly
when the connect succeeds, false on every refusal, timeout or error
outcome.  For a port above 65535 the socket layer raises OverflowError
and the probe propagates it to the caller. -/
theorem port_probe_range_exact :
    ∀ (net : Nat → ConnectOutcome) (port : Nat),
      (port ≤ 65535 →
        is_port_available_run net port
          = Except.ok (is_port_available net port) ∧
        (is_port_available net port = true ↔
          net port = ConnectOutcome.success)) ∧
      (65535 < port →
        is_port_available_run net port
          = Except.error "OverflowError: getsockaddrarg: port must be 0-65535.") := by
  intro net port
  refine ⟨fun h => ⟨?_, ?_⟩, fun h => ?_⟩
  · simp [is_port_available_run, connect_ex_run, h, is_port_available]
  · cases ho : net port <;> simp [is_port_available, connect_ex, ho]
  · simp [is_port_available_run, connect_ex_run, Nat.not_le.mpr h]

/-- Witness for the amended C7: a refused connect on the in-range port
8080 yields ok false, and false is not a successful connect. -/
theorem port_probe_range_exact_witness :
    is_port_available_run (fun _ => ConnectOutcome.refused) 8080
      = Except.ok (is_port_available (fun _ => ConnectOutcome.refused) 8080) ∧
    (is_port_available (fun _ => ConnectOutcome.refused) 8080 = true ↔
      (fun _ => ConnectOutcome.refused) 8080 = ConnectOutcome.success) :=
  (port_probe_range_exact (fun _ => ConnectOutcome.refused) 8080).1
    (by decide)

/-- C9: when the binary is already present, ensure_frpc_installed
returns true immediately with zero network calls and an unchanged
environment, so a second call right after also performs zero network
calls. -/
theorem ensure_installed_fast_path :
    ∀ (e : InstEnv), e.present = true →
      ensure_frpc_installed e
        = { result := Except.ok true, netCalls := 0, env := e } ∧
      (ensure_frpc_installed (ensure_frpc_installed e).env).netCalls = 0 := by
  intro e h
  constructor <;> simp [ensure_frpc_installed, h]

/-- Witness for C9 at a concrete environment with the binary present. -/
theorem ensure_installed_fast_path_witness :
    ensure_frpc_installed ⟨true, ⟨"linux", "x86_64", 200, []⟩⟩
      = { result := Except.ok true, netCalls := 0,
          env := ⟨true, ⟨"linux", "x86_64", 200, []⟩⟩ } ∧
    (ensure_frpc_installed
        (ensure_frpc_installed ⟨true, ⟨"linux", "x86_64", 200, []⟩⟩).env).netCalls
      = 0 :=
  ensure_installed_fast_path ⟨true, ⟨"linux", "x86_64", 200, []⟩⟩ rfl

/-- C10: the auth callback stores the delivered key only for the
matching session id (answering 200); any other session id leaves the
stored key unchanged and answers 400, and a malformed body leaves the
stored key unchanged and answers 500. -/
theorem auth_callback_session_gate :
    ∀ (st : AuthState) (sid key : Option String) (m : String),
      (sid = some st.session_id →
        handle_callback st (CallbackBody.fields sid key)
          = ({ st with api_key := key }, 200, "API key received")) ∧
      (sid ≠ some st.session_id →
        handle_callback st (CallbackBody.fields sid key)
          = (st, 400, "Invalid session")) ∧
      handle_callback st (CallbackBody.malformed m) = (st, 500, m) := by
  intro st sid key m
  refine ⟨fun h => ?_, fun h => ?_, rfl⟩ <;> simp [handle_callback, h]

/-- Witness for C10: a wrong session id is rejected with 400 and the
stored key stays none. -/
theorem auth_callback_session_gate_witness :
    handle_callback ⟨"sess-1", none⟩
        (CallbackBody.fields (some "sess-2") (some "tk_x"))
      = (⟨"sess-1", none⟩, 400, "Invalid session") :=
  (auth_callback_session_gate ⟨"sess-1", none⟩ (some "sess-2") (some "tk_x")
    "boom").2.1 (by decide)

/-- C5 counterexample: with installation failing, a pass over two
tunnels where the first needs STOP (its port is down while a live
process is registered) reconciles nothing: the registered process stays
connected and no port_down report is sent, contradicting the claim that
only the affected tunnel's START is abandoned while every other tunnel
is still reconciled. -/
theorem install_failure_cex :
    auto_connect_tunnels envNoInstall worldConnectedA [tunnelA, tunnelB]
        = worldConnectedA ∧
    get_tunnel_status
        (auto_connect_tunnels envNoInstall worldConnectedA [tunnelA, tunnelB])
        "t1" = TStatus.connected ∧
    (auto_connect_tunnels envNoInstall worldConnectedA
        [tunnelA, tunnelB]).reports = [] := by
  refine ⟨rfl, ?_, rfl⟩
  decide

/-- C5 amended: a failure to install the forwarding binary abandons the
entire reconciliation pass for the current cycle without raising to the
caller: no tunnel is reconciled and no report is sent. -/
theorem install_failure_abandons_pass :
    ∀ (env : Env) (w : World) (ts : List Tunnel),
      env.installOk = false → auto_connect_tunnels env w ts = w := by
  intro env w ts h
  simp [auto_connect_tunnels, h]

/-- Witness for the amended C5 at a concrete failing environment. -/
theorem install_failure_abandons_pass_witness :
    auto_connect_tunnels envNoInstall World.init [tunnelA] = World.init :=
  install_failure_abandons_pass envNoInstall World.init [tunnelA] rfl

/-- The sync pass never looks at its own report log: the reports it
computes depend only on the registry and the port probe. -/
theorem syncReportList_report (env : Env) (w : World) (tid : String)
    (s : RStatus) (ts : List Tunnel) :
    syncReportList env (report w tid s) ts = syncReportList env w ts := rfl

/-- C6 counterexample: with a fresh registry, one tunnel whose port is
open, and installation and spawn succeeding, the full pass run on
dashboard load (auto_connect_tunnels) starts the forwarding process and
leaves the tunnel connected, while the operation the 30-unit timer
invokes (periodic_sync) starts nothing: the registry stays empty, the
tunnel stays not_started, and what it reports is "disconnected" rather
than acting.  The periodic operation is therefore not the same
decide-act-report pass. -/
theorem periodic_timer_not_full_pass_cex :
    get_tunnel_status (periodic_sync envAllOk World.init [tunnelA]) "t1"
        = TStatus.not_started ∧
    (periodic_sync envAllOk World.init [tunnelA]).procs = [] ∧
    (periodic_sync envAllOk World.init [tunnelA]).reports
        = [("t1", RStatus.disconnected)] ∧
    get_tunnel_status (auto_connect_tunnels envAllOk World.init [tunnelA]) "t1"
        = TStatus.connected ∧
    periodic_sync envAllOk World.init [tunnelA]
        ≠ auto_connect_tunnels envAllOk World.init [tunnelA] := by
  refine ⟨?_, rfl, rfl, ?_, ?_⟩ <;> decide

/-- C6 amended: the periodic timer (interval 30) invokes a status-sync
operation, not the full reconciliation pass: for every tunnel with a
local port it probes the port and reads the registry status and reports
connected (live process and port open), port_down (port closed) or
disconnected (port open, no live process), and it never starts or stops
a forwarding process — the registry, process set, allocation counter
and config files are left exactly as they were.  The full
decide-act-report pass runs on dashboard load and on explicit refresh
(auto_connect_tunnels). -/
theorem periodic_sync_reports_without_acting :
    sync_interval = 30 ∧
    ∀ (env : Env) (ts : List Tunnel) (w : World),
      periodic_sync env w ts
        = { w with reports := w.reports ++ syncReportList env w ts } := by
  refine ⟨rfl, fun env ts => ?_⟩
  induction ts with
  | nil => intro w; simp [periodic_sync, sync_connection_status, syncReportList]
  | cons t rest ih =>
      intro w
      have hstep : periodic_sync env w (t :: rest)
          = periodic_sync env (syncOne env w t) rest := rfl
      rw [hstep, ih]
      cases hlp : t.local_port with
      | none =>
          simp [syncOne, hlp, syncReportList]
      | some lp =>
          simp only [syncOne, hlp]
          rw [syncReportList_report]
          simp [report, syncReportList, hlp, List.filterMap_cons]

/-- C2 counterexample: starting a valid tunnel in a fresh world where
the spawned process dies within the grace period raises the descriptive
error carrying the captured stderr, but a handle for the tunnel id DOES
remain registered: the registry still maps the id to the dead process,
and its status is disconnected, not not_started. -/
theorem start_grace_failure_cex :
    (start_tunnel envSpawnDies World.init tunnelA 3000).2
        = Except.error
            "Failed to start tunnel: FRP client failed to start: bind: address already in use" ∧
    lookupTid (start_tunnel envSpawnDies World.init tunnelA 3000).1.procs "t1"
        = some 0 ∧
    get_tunnel_status (start_tunnel envSpawnDies World.init tunnelA 3000).1 "t1"
        = TStatus.disconnected ∧
    get_tunnel_status (start_tunnel envSpawnDies World.init tunnelA 3000).1 "t1"
        ≠ TStatus.not_started := by
  refine ⟨rfl, rfl, ?_, ?_⟩ <;> decide

/-- C2 amended: when the spawned forwarding process exits within the
grace period, start_tunnel raises a failure whose message carries the
process's captured error output, but the dead handle for the tunnel id
remains registered in the registry: its status afterwards is
disconnected, not not_started. -/
theorem start_grace_failure_keeps_dead_handle :
    ∀ (env : Env) (w : World) (t : Tunnel) (lp : Nat),
      (∀ p ∈ w.live, p < w.next) → t.valid → env.spawnOk w.next = false →
      (start_tunnel env w t lp).2
          = Except.error (startErrMsg (env.stderrOf w.next)) ∧
      lookupTid (start_tunnel env w t lp).1.procs t.id = some w.next ∧
      get_tunnel_status (start_tunnel env w t lp).1 t.id
          = TStatus.disconnected := by
  intro env w t lp hb ht hs
  rw [start_tunnel_spawn_fail env w t lp ht hs]
  refine ⟨rfl, ?_, ?_⟩
  · rw [lookupTid_append, stop_lookup_self]
    simp [lookupTid]
  · unfold get_tunnel_status
    rw [show lookupTid ((stop_tunnel w t.id).1.procs ++ [(t.id, w.next)]) t.id
          = some w.next from by
        rw [lookupTid_append, stop_lookup_self]; simp [lookupTid]]
    have hnm : w.next ∉ (stop_tunnel w t.id).1.live := fun hmem =>
      absurd (hb _ (stop_live_subset hmem)) (lt_irrefl _)
    simp [hnm]

/-- Witness for the amended C2 at a concrete world and environment. -/
theorem start_grace_failure_keeps_dead_handle_witness :
    (start_tunnel envSpawnDies worldConnectedA tunnelB 3001).2
        = Except.error (startErrMsg (envSpawnDies.stderrOf 1)) ∧
    lookupTid (start_tunnel envSpawnDies worldConnectedA tunnelB 3001).1.procs
        "t2" = some 1 ∧
    get_tunnel_status (start_tunnel envSpawnDies worldConnectedA tunnelB 3001).1
        "t2" = TStatus.disconnected :=
  start_grace_failure_keeps_dead_handle envSpawnDies worldConnectedA tunnelB
    3001 (by decide) (by decide) rfl

/-- C4: the platform key mapping recognises every common desktop system
(keys exist for darwin and linux in both amd64 and arm64 variants and
for windows amd64, and the mapping only fails on a system outside
darwin/linux/windows); download_frpc propagates an error exactly when
the platform is unrecognised, the download status is not 200, or the
binary name is nowhere in the extracted tree; and on success it moves
the binary from where the walk found it, marks it executable exactly on
non-Windows systems, and removes the scratch directory and the
downloaded archive. -/
theorem provisioner_download_contract :
    ∀ (e : DlEnv),
      ((e.system = "darwin" ∨ e.system = "linux" ∨ e.system = "windows") →
        ∃ k, platform_name e.system e.machine = some k) ∧
      (platform_name e.system e.machine = none ↔
        e.system ≠ "darwin" ∧ e.system ≠ "linux" ∧ e.system ≠ "windows") ∧
      platform_name "darwin" "arm64" = some "darwin_arm64" ∧
      platform_name "darwin" "x86_64" = some "darwin_amd64" ∧
      platform_name "linux" "armv8l" = some "linux_arm64" ∧
      platform_name "linux" "x86_64" = some "linux_amd64" ∧
      platform_name "windows" "amd64" = some "windows_amd64" ∧
      ((∃ m, download_frpc e = Except.error m) ↔
        (platform_name e.system e.machine = none ∨ e.status ≠ 200 ∨
          findBinary e.walk (frpc_name e.system) = none)) ∧
      (∀ o, download_frpc e = Except.ok o →
        findBinary e.walk (frpc_name e.system) = some o.movedFrom ∧
        (o.madeExecutable = true ↔ e.system ≠ "windows") ∧
        o.removedScratch = true ∧ o.removedArchive = true) := by
  intro e
  have hnone : platform_name e.system e.machine = none ↔
      e.system ≠ "darwin" ∧ e.system ≠ "linux" ∧ e.system ≠ "windows" := by
    unfold platform_name
    by_cases h1 : e.system = "darwin"
    · rw [if_pos h1]
      constructor
      · intro hx
        split at hx <;> exact Option.noConfusion hx
      · rintro ⟨hd, _, _⟩
        exact absurd h1 hd
    · by_cases h2 : e.system = "linux"
      · rw [if_neg h1, if_pos h2]
        constructor
        · intro hx
          split at hx <;> exact Option.noConfusion hx
        · rintro ⟨_, hl, _⟩
          exact absurd h2 hl
      · by_cases h3 : e.system = "windows"
        · rw [if_neg h1, if_neg h2, if_pos h3]
          constructor
          · intro hx
            exact Option.noConfusion hx
          · rintro ⟨_, _, hw⟩
            exact absurd h3 hw
        · rw [if_neg h1, if_neg h2, if_neg h3]
          simp [h1, h2, h3]
  refine ⟨?_, hnone, by decide, by decide, by decide, by decide, by decide,
    ?_, ?_⟩
  · intro h
    cases hp : platform_name e.system e.machine with
    | some k => exact ⟨k, rfl⟩
    | none =>
        obtain ⟨h1, h2, h3⟩ := hnone.mp hp
        rcases h with h | h | h
        · exact absurd h h1
        · exact absurd h h2
        · exact absurd h h3
  · unfold download_frpc
    cases hp : platform_name e.system e.machine with
    | none => simp [hp]
    | some k =>
        by_cases hst : e.status = 200
        · cases hf : findBinary e.walk (frpc_name e.system) with
          | none => simp [hp, hst, hf]
          | some p => simp [hp, hst, hf]
        · simp [hp, hst]
  · intro o ho
    unfold download_frpc at ho
    cases hp : platform_name e.system e.machine with
    | none => rw [hp] at ho; exact absurd ho (by simp)
    | some k =>
        rw [hp] at ho
        by_cases hst : e.status = 200
        · rw [if_neg (by simp [hst])] at ho
          cases hf : findBinary e.walk (frpc_name e.system) with
          | none => rw [hf] at ho; exact absurd ho (by simp)
          | some p =>
              rw [hf] at ho
              injection ho with ho
              subst ho
              refine ⟨rfl, ?_, rfl, rfl⟩
              by_cases hw : e.system = "windows" <;> simp [hw]
        · rw [if_pos (by simp [hst])] at ho
          exact absurd ho (by simp)

/-- Witness for C4: on a concrete linux/x86_64 environment with a good
download the install succeeds, the binary is found inside the extracted
release directory, it is marked executable, and both the scratch
directory and the archive are removed. -/
theorem provisioner_download_contract_witness :
    findBinary
        (DlEnv.mk "linux" "x86_64" 200
          [("temp/frp_0.52.3_linux_amd64", ["frpc", "frps", "LICENSE"])]).walk
        (frpc_name "linux")
      = some
          (DlOutcome.mk "temp/frp_0.52.3_linux_amd64/frpc" true true
            true).movedFrom ∧
    ((DlOutcome.mk "temp/frp_0.52.3_linux_amd64/frpc" true true
        true).madeExecutable = true ↔
      (DlEnv.mk "linux" "x86_64" 200
          [("temp/frp_0.52.3_linux_amd64", ["frpc", "frps", "LICENSE"])]).system
        ≠ "windows") ∧
    (DlOutcome.mk "temp/frp_0.52.3_linux_amd64/frpc" true true
        true).removedScratch = true ∧
    (DlOutcome.mk "temp/frp_0.52.3_linux_amd64/frpc" true true
        true).removedArchive = true :=
  (provisioner_download_contract
      (DlEnv.mk "linux" "x86_64" 200
        [("temp/frp_0.52.3_linux_amd64", ["frpc", "frps", "LICENSE"])])).2.2.2.2.2.2.2.2
    (DlOutcome.mk "temp/frp_0.52.3_linux_amd64/frpc" true true true)
    rfl

/-- C1: each tunnel with a non-null local_port is reconciled by
probing the port and reading the registry status and then executing
exactly the action of the specification's decision table (START when
the port is open and the status is not connected, with a connected
report on success; STOP with a port_down report when the port is closed
and the status is connected; a bare port_down report when the port is
closed otherwise; nothing otherwise).  Moreover, for one pass from the
initial world (fresh registry and report log), with the binary
installed, valid tunnels with distinct ids and spawns that survive the
grace period, every tunnel with a local port whose port is open ends
with registry status connected and exactly one connected report
attempted for it. -/
theorem auto_connect_reconciliation :
    (∀ (env : Env) (w : World) (t : Tunnel),
      reconcileOne env w t
        = match t.local_port with
          | none => w
          | some lp =>
              runAction env w t lp
                (specAction (env.portOpen lp) (get_tunnel_status w t.id))) ∧
    (∀ (env : Env) (ts : List Tunnel),
      env.installOk = true → (∀ p, env.spawnOk p = true) →
      (∀ u ∈ ts, u.valid) → (ts.map Tunnel.id).Nodup →
      ∀ t ∈ ts, ∀ lp, t.local_port = some lp → env.portOpen lp = true →
        get_tunnel_status (auto_connect_tunnels env World.init ts) t.id
          = TStatus.connected ∧
        connectedReports
            (auto_connect_tunnels env World.init ts).reports t.id = 1) := by
  refine ⟨reconcileOne_refines_spec, ?_⟩
  intro env ts hinst hspawn hvalid hnodup t htmem lp hlp hopen
  have hred : auto_connect_tunnels env World.init ts
      = ts.foldl (reconcileOne env) World.init := by
    simp [auto_connect_tunnels, hinst]
  rw [hred]
  have h := pass_connects ts World.init wf_init hspawn hvalid hnodup
    (fun u _ => rfl) t htmem lp hlp hopen
  exact ⟨h.1, by rw [h.2]; rfl⟩

/-- Witness for C1 at two concrete tunnels with open ports, starting
from the fresh world with a fully cooperative environment. -/
theorem auto_connect_reconciliation_witness :
    get_tunnel_status
        (auto_connect_tunnels envAllOk World.init [tunnelA, tunnelB])
        tunnelA.id
      = TStatus.connected ∧
    connectedReports
        (auto_connect_tunnels envAllOk World.init [tunnelA, tunnelB]).reports
        tunnelA.id = 1 :=
  auto_connect_reconciliation.2 envAllOk [tunnelA, tunnelB] rfl
    (fun _ => rfl) (by decide) (by decide) tunnelA
    (List.mem_cons_self tunnelA [tunnelB]) 3000 rfl rfl

/-- C3: start_tunnel first stops any existing handle for the tunnel id
before spawning, so the registry holds at most one binding per id
(exactly one after a start) and repeated starts with the same id and
port leave exactly one live process ever spawned for that id — never
two — after each of the two calls. -/
theorem start_repeated_single_live :
    ∀ (env : Env) (w : World) (t : Tunnel) (lp : Nat),
      w.WF → startInv w t.id → t.valid → (∀ p, env.spawnOk p = true) →
      liveSpawnedFor (start_tunnel env w t lp).1 t.id = 1 ∧
      countKey (start_tunnel env w t lp).1.procs t.id = 1 ∧
      liveSpawnedFor
          (start_tunnel env (start_tunnel env w t lp).1 t lp).1 t.id = 1 ∧
      countKey
          (start_tunnel env (start_tunnel env w t lp).1 t lp).1.procs t.id
        = 1 := by
  intro env w t lp hwf hinv ht hs
  obtain ⟨a1, a2, awf, ainv⟩ := start_ok_step hwf hinv ht (hs w.next)
  obtain ⟨b1, b2, _, _⟩ := start_ok_step awf ainv ht (hs _)
  exact ⟨a1, a2, b1, b2⟩

/-- Witness for C3: two starts of tunnelA from the fresh world leave
exactly one live process and one registry binding for its id. -/
theorem start_repeated_single_live_witness :
    liveSpawnedFor (start_tunnel envAllOk World.init tunnelA 3000).1 "t1" = 1 ∧
    countKey (start_tunnel envAllOk World.init tunnelA 3000).1.procs "t1" = 1 ∧
    liveSpawnedFor
        (start_tunnel envAllOk (start_tunnel envAllOk World.init tunnelA 3000).1
          tunnelA 3000).1 "t1" = 1 ∧
    countKey
        (start_tunnel envAllOk (start_tunnel envAllOk World.init tunnelA 3000).1
          tunnelA 3000).1.procs "t1" = 1 :=
  start_repeated_single_live envAllOk World.init tunnelA 3000 wf_init
    (fun e he => absurd he (List.not_mem_nil e)) (by decide) (fun _ => rfl)

/-- C8: the config text is a function of subdomain and local port that
embeds the fixed edge host and port, the section keyed by the
subdomain, the http protocol line, local_ip = 127.0.0.1, the local
port, and the custom domain subdomain.tunnel.ovream.com; in particular
for subdomain "abc" and local_port 4000 it contains the literal
substring "local_port = 4000" and one of its lines is exactly
"custom_domains = abc.tunnel.ovream.com". -/
theorem build_config_embeds_fields :
    (∀ (s : String) (p : Nat),
      strContains (build_config s p) "server_addr = tunnel.ovream.com" = true ∧
      strContains (build_config s p) "server_port = 7000" = true ∧
      strContains (build_config s p) ("[" ++ s ++ "]") = true ∧
      strContains (build_config s p) "type = http" = true ∧
      strContains (build_config s p) "local_ip = 127.0.0.1" = true ∧
      strContains (build_config s p) ("local_port = " ++ toString p) = true ∧
      strContains (build_config s p)
        ("custom_domains = " ++ s ++ ".tunnel.ovream.com") = true) ∧
    strContains (build_config "abc" 4000) "local_port = 4000" = true ∧
    "custom_domains = abc.tunnel.ovream.com".data
        ∈ splitLines (build_config "abc" 4000).data := by
  refine ⟨fun s p => ⟨?_, ?_, ?_, ?_, ?_, ?_, ?_⟩, by decide, by decide⟩
  · exact strContains_of_eq _ "[common]\n" _
      ("\nserver_port = 7000\n\n[" ++ (s ++
        ("]\ntype = http\nlocal_ip = 127.0.0.1\nlocal_port = " ++
          (toString p ++ ("\ncustom_domains = " ++
            (s ++ ".tunnel.ovream.com\n"))))))
      (by
        simp only [build_config,
          show ("[common]\nserver_addr = tunnel.ovream.com\nserver_port = 7000\n\n[" : String)
              = "[common]\n" ++ ("server_addr = tunnel.ovream.com"
                  ++ "\nserver_port = 7000\n\n[") from rfl,
          String.append_assoc])
  · exact strContains_of_eq _ "[common]\nserver_addr = tunnel.ovream.com\n" _
      ("\n\n[" ++ (s ++
        ("]\ntype = http\nlocal_ip = 127.0.0.1\nlocal_port = " ++
          (toString p ++ ("\ncustom_domains = " ++
            (s ++ ".tunnel.ovream.com\n"))))))
      (by
        simp only [build_config,
          show ("[common]\nserver_addr = tunnel.ovream.com\nserver_port = 7000\n\n[" : String)
              = "[common]\nserver_addr = tunnel.ovream.com\n"
                  ++ ("server_port = 7000" ++ "\n\n[") from rfl,
          String.append_assoc])
  · exact strContains_of_eq _
      "[common]\nserver_addr = tunnel.ovream.com\nserver_port = 7000\n\n" _
      ("\ntype = http\nlocal_ip = 127.0.0.1\nlocal_port = " ++
        (toString p ++ ("\ncustom_domains = " ++ (s ++ ".tunnel.ovream.com\n"))))
      (by
        simp only [build_config,
          show ("[common]\nserver_addr = tunnel.ovream.com\nserver_port = 7000\n\n[" : String)
              = "[common]\nserver_addr = tunnel.ovream.com\nserver_port = 7000\n\n"
                  ++ "[" from rfl,
          show ("]\ntype = http\nlocal_ip = 127.0.0.1\nlocal_port = " : String)
              = "]" ++ "\ntype = http\nlocal_ip = 127.0.0.1\nlocal_port = "
              from rfl,
          String.append_assoc])
  · exact strContains_of_eq _
      ("[common]\nserver_addr = tunnel.ovream.com\nserver_port = 7000\n\n["
        ++ (s ++ "]\n")) _
      ("\nlocal_ip = 127.0.0.1\nlocal_port = " ++
        (toString p ++ ("\ncustom_domains = " ++ (s ++ ".tunnel.ovream.com\n"))))
      (by
        simp only [build_config,
          show ("]\ntype = http\nlocal_ip = 127.0.0.1\nlocal_port = " : String)
              = "]\n" ++ ("type = http"
                  ++ "\nlocal_ip = 127.0.0.1\nlocal_port = ") from rfl,
          String.append_assoc])
  · exact strContains_of_eq _
      ("[common]\nserver_addr = tunnel.ovream.com\nserver_port = 7000\n\n["
        ++ (s ++ "]\ntype = http\n")) _
      ("\nlocal_port = " ++
        (toString p ++ ("\ncustom_domains = " ++ (s ++ ".tunnel.ovream.com\n"))))
      (by
        simp only [build_config,
          show ("]\ntype = http\nlocal_ip = 127.0.0.1\nlocal_port = " : String)
              = "]\ntype = http\n" ++ ("local_ip = 127.0.0.1"
                  ++ "\nlocal_port = ") from rfl,
          String.append_assoc])
  · exact strContains_of_eq _
      ("[common]\nserver_addr = tunnel.ovream.com\nserver_port = 7000\n\n["
        ++ (s ++ "]\ntype = http\nlocal_ip = 127.0.0.1\n")) _
      ("\ncustom_domains = " ++ (s ++ ".tunnel.ovream.com\n"))
      (by
        simp only [build_config,
          show ("]\ntype = http\nlocal_ip = 127.0.0.1\nlocal_port = " : String)
              = "]\ntype = http\nlocal_ip = 127.0.0.1\n" ++ "local_port = "
              from rfl,
          String.append_assoc])
  · exact strContains_of_eq _
      ("[common]\nserver_addr = tunnel.ovream.com\nserver_port = 7000\n\n["
        ++ (s ++ ("]\ntype = http\nlocal_ip = 127.0.0.1\nlocal_port = "
          ++ (toString p ++ "\n")))) _
      "\n"
      (by
        simp only [build_config,
          show ("\ncustom_domains = " : String)
              = "\n" ++ "custom_domains = " from rfl,
          show (".tunnel.ovream.com\n" : String)
              = ".tunnel.ovream.com" ++ "\n" from rfl,
          String.append_assoc])

end TunnelCli
